import Mathlib

/-!
A verification development for the flight-schedule validation and query
engine (Python source file under `src/`).  The Python functions are
shallowly embedded as executable Lean definitions:

* Python strings are Lean `String`s, but every operation is implemented
  directly over `List Char` (splitting, stripping, case folding, digit
  scanning), because those are the operations the source performs and
  they evaluate inside the kernel.  Character classes (`isdigit`,
  `isalpha`, `isupper`, whitespace) are modelled at ASCII; every string
  constant in the source (airport codes, header, formats) is ASCII.
* `datetime.strptime(value, "%Y-%m-%d %H:%M")` is embedded following
  CPython's `_strptime` implementation: the format is compiled to the
  regex `(?P<Y>\d\d\d\d)-(?P<m>1[0-2]|0[1-9]|[1-9])-(?P<d>3[01]|[12]\d|0[1-9]|[1-9])\s+(?P<H>2[0-3]|[0-1]\d|\d):(?P<M>[0-5]\d|\d)`,
  the match must start at position 0 and consume the whole string, and
  the resulting numbers must form a valid `datetime` (year at least 1,
  day at most the month length, leap years per the Gregorian rule).
  Because every numeric group is followed by a non-digit literal (or the
  end of the input), the regex is deterministic on a maximal digit run,
  which is how it is implemented below.  Note that the CPython regex
  accepts 1-digit month/day/hour/minute (no zero-padding required).
* Python `float(s)` is embedded with the full literal grammar the
  CPython conversion accepts: optional sign; `inf`/`infinity`/`nan`
  case-insensitively; otherwise digits with single underscores allowed
  only between digits, an optional fraction, and an optional
  `e`/`E`-exponent with at least one digit.  The result is a `PyFloat`:
  `nan`, a signed infinity, or a finite value kept as the exact scaled
  decimal `Dec` (value `num / 10 ^ exp`).  Comparisons follow Python:
  `nan` is incomparable (every comparison with it is false), infinities
  compare by sign, and finite values compare as exact rationals by
  cross-multiplication.  IEEE rounding of finite values — including
  overflow of huge exponents to infinity and underflow of tiny ones to
  zero — is not modelled: a finite literal keeps its exact value.
* Exceptions (`ValueError` from `strptime` inside `filter_flights`) are
  modelled with `Except String`; the tuple-returning validator returns
  the same `(flight-or-None, error-or-None)` pair as the source.
-/

/-! ## Character and string helpers (ASCII models of Python primitives) -/

/-- ASCII model of the whitespace class used by Python `str.strip` and the
regex class `\s`: space, tab, newline, carriage return, form feed,
vertical tab. -/
def pyWS (c : Char) : Bool :=
  c == ' ' || c == '\t' || c == '\n' || c == '\r' || c == '\x0c' || c == '\x0b'

/-- Python `str.strip()`: drop leading and trailing whitespace. -/
def pyStrip (cs : List Char) : List Char :=
  ((cs.dropWhile pyWS).reverse.dropWhile pyWS).reverse

/-- Python `str.split(",")`: split on every comma, keeping empty pieces;
splitting the empty string yields one empty piece. -/
def splitOnComma : List Char → List (List Char)
  | [] => [[]]
  | c :: rest =>
    if c == ',' then [] :: splitOnComma rest
    else
      match splitOnComma rest with
      | [] => [[c]]
      | h :: t => (c :: h) :: t

/-- The expression `[p.strip() for p in line.split(",")]` from
`validate_and_build_flight`. -/
def splitFields (line : String) : List String :=
  (splitOnComma line.data).map (fun cs => String.mk (pyStrip cs))

/-- Numeric value of a run of ASCII digits. -/
def digitsVal (ds : List Char) : Nat :=
  ds.foldl (fun a c => 10 * a + (c.toNat - '0'.toNat)) 0

/-- ASCII model of Python `str.lower()`. -/
def pyLower (s : String) : String :=
  String.mk (s.data.map Char.toLower)

/-- ASCII model of Python `str.isupper()`: at least one cased character and
no lowercase character. -/
def pyIsUpper (s : String) : Bool :=
  (s.data.any fun c => c.isUpper || c.isLower) && (s.data.all fun c => !c.isLower)

/-- Python `str.startswith`, as a plain list check. -/
def leadsWith : List Char → List Char → Bool
  | [], _ => true
  | _ :: _, [] => false
  | a :: as, b :: bs => a == b && leadsWith as bs

/-- The expression `", ".join(issues)` from the source. -/
def joinIssues : List String → String
  | [] => ""
  | [s] => s
  | s :: rest => s ++ ", " ++ joinIssues rest

/-- The `f"Line {lineno}: {line} → {msg}"` diagnostic shape used
throughout the source. -/
def lineMsg (lineno : Nat) (line : String) (msg : String) : String :=
  "Line " ++ toString lineno ++ ": " ++ line ++ " → " ++ msg

/-! ## Exact decimals: the model of Python `float` values here -/

/-- Ten to the `n`, as a `Nat`, by plain structural recursion so that it
always evaluates in the kernel. -/
def pow10n : Nat → Nat
  | 0 => 1
  | n + 1 => 10 * pow10n n

/-- An exact scaled decimal: the value is `num / 10 ^ exp`.  This is the
embedding of the `float` values produced by parsing the plain decimal
literals the source handles. -/
structure Dec where
  num : Int
  exp : Nat
deriving DecidableEq, Repr

/-- The rational value of a scaled decimal. -/
def Dec.toRat (d : Dec) : Rat :=
  (d.num : Rat) / ((pow10n d.exp : Nat) : Rat)

/-- A Python `float` value as far as this program observes it: `nan`, a
signed infinity, or a finite value kept as an exact scaled decimal
(IEEE rounding of finite literals not modelled). -/
inductive PyFloat where
  | finite (d : Dec)
  | inf (neg : Bool)
  | nan
deriving DecidableEq, Repr

/-- A maximal run of digits in which single underscores may stand
between two digits (PEP 515, as `float()` accepts): returns the digits
with the underscores removed, and the unconsumed rest.  The run stops
before an underscore that is not followed by a digit, which makes the
overall literal invalid exactly when Python rejects it. -/
def digsU : List Char → List Char × List Char
  | c :: '_' :: d :: rest =>
    if c.isDigit && d.isDigit then
      let (ds, r) := digsU (d :: rest)
      (c :: ds, r)
    else if c.isDigit then ([c], '_' :: d :: rest)
    else ([], c :: '_' :: d :: rest)
  | c :: rest =>
    if c.isDigit then
      let (ds, r) := digsU rest
      (c :: ds, r)
    else ([], c :: rest)
  | [] => ([], [])

/-- The unsigned magnitude of a parsed `float` literal: `nan`, an
infinity, or `mant * 10 ^ exp10`. -/
inductive FloatMag where
  | nanM : FloatMag
  | infM : FloatMag
  | finM (mant : Nat) (exp10 : Int) : FloatMag
deriving DecidableEq, Repr

/-- Exponent digits after an optional sign: the whole rest must be one
digit run. -/
def expDigits (r : List Char) (neg : Bool) : Option Int :=
  let (ds, rest) := digsU r
  if ds.isEmpty || !rest.isEmpty then none
  else some (if neg then -(digitsVal ds : Int) else (digitsVal ds : Int))

/-- The exponent part after the `e`/`E` marker. -/
def expVal : List Char → Option Int
  | '+' :: r => expDigits r false
  | '-' :: r => expDigits r true
  | r => expDigits r false

/-- Finish a finite literal of value `m * 10 ^ sc`: either the string
ends here or an exponent follows; anything else is a `ValueError`. -/
def pyFloatTail (m : Nat) (sc : Int) : List Char → Option FloatMag
  | [] => some (.finM m sc)
  | 'e' :: r => (expVal r).map (fun e => .finM m (sc + e))
  | 'E' :: r => (expVal r).map (fun e => .finM m (sc + e))
  | _ => none

/-- The magnitude grammar of Python `float(s)` after the optional sign:
case-insensitive `inf`/`infinity`/`nan`, or digits with an optional
single dot (at least one digit overall) and an optional exponent. -/
def pyFloatMag (cs : List Char) : Option FloatMag :=
  let low := cs.map Char.toLower
  if low = "inf".data ∨ low = "infinity".data then some .infM
  else if low = "nan".data then some .nanM
  else
    let (ip, r1) := digsU cs
    match r1 with
    | '.' :: r2 =>
      let (fp, r3) := digsU r2
      if ip.isEmpty && fp.isEmpty then none
      else pyFloatTail (digitsVal ip * pow10n fp.length + digitsVal fp) (-(fp.length : Int)) r3
    | r1 => if ip.isEmpty then none else pyFloatTail (digitsVal ip) 0 r1

/-- Attach the sign to a parsed magnitude (the sign of `nan` is
immaterial, as in Python) and normalise `mant * 10 ^ exp10` into a
`Dec`. -/
def magToFloat (neg : Bool) : FloatMag → PyFloat
  | .nanM => .nan
  | .infM => .inf neg
  | .finM m sc =>
    let n : Int := if neg then -(m : Int) else (m : Int)
    if 0 ≤ sc then .finite ⟨n * (pow10n sc.toNat : Int), 0⟩
    else .finite ⟨n, (-sc).toNat⟩

/-- Python `float(s)`: optional sign, then the magnitude.  `none`
models `ValueError`. -/
def pyFloat? (s : String) : Option PyFloat :=
  match s.data with
  | '-' :: rest => (pyFloatMag rest).map (magToFloat true)
  | '+' :: rest => (pyFloatMag rest).map (magToFloat false)
  | cs => (pyFloatMag cs).map (magToFloat false)

/-- Python `v < 0`: false for `nan`, the sign for an infinity, the sign
of the numerator for a finite value. -/
def PyFloat.ltZeroB : PyFloat → Bool
  | .finite d => decide (d.num < 0)
  | .inf neg => neg
  | .nan => false

/-- Python `v == 0`: false for `nan` and infinities. -/
def PyFloat.eqZeroB : PyFloat → Bool
  | .finite d => d.num == 0
  | .inf _ => false
  | .nan => false

/-- Python `0 < v`: false for `nan`, true for `+inf`, the numerator
sign for a finite value. -/
def PyFloat.posB : PyFloat → Bool
  | .finite d => decide (0 < d.num)
  | .inf neg => !neg
  | .nan => false

/-- Python `a > b`: false whenever `nan` is involved, by sign for
infinities, exact cross-multiplied comparison for finite values. -/
def PyFloat.gtB : PyFloat → PyFloat → Bool
  | .nan, _ => false
  | _, .nan => false
  | .inf a, .inf b => !a && b
  | .inf a, .finite _ => !a
  | .finite _, .inf b => b
  | .finite a, .finite b =>
    decide (b.num * (pow10n a.exp : Int) < a.num * (pow10n b.exp : Int))

/-! ## Datetimes and `strptime` -/

/-- The `DATE_FORMAT` constant of the source. -/
def DATE_FORMAT : String := "%Y-%m-%d %H:%M"

/-- A parsed naive datetime with minute precision, as produced by
`datetime.strptime(value, DATE_FORMAT)`. -/
structure PyDateTime where
  year : Nat
  month : Nat
  day : Nat
  hour : Nat
  minute : Nat
deriving DecidableEq, Repr

/-- A numeric key that orders `PyDateTime`s exactly as Python orders
`datetime` objects (lexicographically by field), valid because every
component produced by the parser is below its mixed radix. -/
def PyDateTime.rank (t : PyDateTime) : Nat :=
  (((t.year * 13 + t.month) * 32 + t.day) * 24 + t.hour) * 60 + t.minute

/-- Gregorian leap-year rule, as used by Python `datetime`. -/
def isLeap (y : Nat) : Bool :=
  y % 4 == 0 && (y % 100 != 0 || y % 400 == 0)

/-- Length of a month, as validated by the `datetime` constructor. -/
def daysInMonth (y m : Nat) : Nat :=
  if m = 2 then (if isLeap y then 29 else 28)
  else if m = 4 ∨ m = 6 ∨ m = 9 ∨ m = 11 then 30
  else 31

/-- The call `datetime.strptime(s, "%Y-%m-%d %H:%M")`, following CPython's
`_strptime`: each numeric group reads the maximal digit run at its
position (the run length and value conditions below are exactly the
regex alternations `\d\d\d\d`, `1[0-2]|0[1-9]|[1-9]`,
`3[01]|[12]\d|0[1-9]|[1-9]`, `2[0-3]|[0-1]\d|\d`, `[0-5]\d|\d`, which
are deterministic because the character after each group is a
non-digit), the whole string must be consumed, and the result must be a
constructible `datetime`. -/
def strptimeDT (s : String) : Option PyDateTime :=
  let cs := s.data
  let yds := cs.takeWhile Char.isDigit
  let r1 := cs.dropWhile Char.isDigit
  if yds.length ≠ 4 then none else
  match r1 with
  | '-' :: r2 =>
    let mds := r2.takeWhile Char.isDigit
    let r3 := r2.dropWhile Char.isDigit
    let mv := digitsVal mds
    if ¬ (mds.length = 1 ∧ 1 ≤ mv ∨ mds.length = 2 ∧ 1 ≤ mv ∧ mv ≤ 12) then none else
    match r3 with
    | '-' :: r4 =>
      let dds := r4.takeWhile Char.isDigit
      let r5 := r4.dropWhile Char.isDigit
      let dv := digitsVal dds
      if ¬ (dds.length = 1 ∧ 1 ≤ dv ∨ dds.length = 2 ∧ 1 ≤ dv ∧ dv ≤ 31) then none else
      let ws := r5.takeWhile pyWS
      let r6 := r5.dropWhile pyWS
      if ws.length = 0 then none else
      let hds := r6.takeWhile Char.isDigit
      let r7 := r6.dropWhile Char.isDigit
      let hv := digitsVal hds
      if ¬ (hds.length = 1 ∨ hds.length = 2 ∧ hv ≤ 23) then none else
      match r7 with
      | ':' :: r8 =>
        let mins := r8.takeWhile Char.isDigit
        let r9 := r8.dropWhile Char.isDigit
        let nv := digitsVal mins
        if ¬ (mins.length = 1 ∨ mins.length = 2 ∧ nv ≤ 59) then none else
        if ¬ (r9 = []) then none else
        let yv := digitsVal yds
        if 1 ≤ yv ∧ 1 ≤ dv ∧ dv ≤ daysInMonth yv mv then
          some ⟨yv, mv, dv, hv, nv⟩
        else none
      | _ => none
    | _ => none
  | _ => none

/-! ## Field validators -/

/-- The `VALID_AIRPORTS` whitelist of the source. -/
def VALID_AIRPORTS : List String :=
  ["LHR", "JFK", "FRA", "RIX", "OSL", "HEL", "ARN", "CDG",
   "DXB", "DOH", "SYD", "AMS", "BRU", "LAX"]

/-- The flight-id branch of `validate_and_build_flight`: issues produced
for one flight-id field. -/
def flightIdIssues (fid : String) : List String :=
  if 2 ≤ fid.length ∧ fid.length ≤ 8 ∧ fid.data.all Char.isAlphanum then []
  else if fid.length > 8 then ["flight_id too long (more than 8 characters)"]
  else if fid.length < 2 then ["flight_id too short (less than 2 characters)"]
  else ["invalid flight_id"]

/-- The `check_airport` helper of `validate_and_build_flight`, returning
the issues it appends. -/
def check_airport (code : String) (kind : String) : List String :=
  if ¬ (code.length = 3 ∧ code.data.all Char.isAlpha = true ∧ pyIsUpper code = true) then
    ["invalid " ++ kind ++ " code"]
  else if ¬ (code ∈ VALID_AIRPORTS) then
    ["invalid " ++ kind ++ " code"]
  else []

/-- Function `parse_datetime` of the source: the parsed value, paired with the
issues it appends to its error list. -/
def parse_datetime (value : String) (kind : String) : Option PyDateTime × List String :=
  match strptimeDT value with
  | some dt => (some dt, [])
  | none => (none, ["invalid " ++ kind ++ " datetime"])

/-- The price branch of `validate_and_build_flight`: the parsed value
(`none` models the caught `ValueError`) and the issues appended.  Note
that `nan` fails both the `< 0` and the `== 0` test and so produces no
issue, exactly as in the source. -/
def priceCheck (s : String) : Option PyFloat × List String :=
  match pyFloat? s with
  | some p =>
    (some p,
      if p.ltZeroB then ["negative price value"]
      else if p.eqZeroB then ["non-positive price value"]
      else [])
  | none => (none, ["invalid price value"])

/-- The `arr_dt <= dep_dt` cross-field check (performed only when both
timestamps parsed). -/
def orderIssues : Option PyDateTime → Option PyDateTime → List String
  | some d, some a => if a.rank ≤ d.rank then ["arrival before departure"] else []
  | _, _ => []

/-! ## Record validator -/

/-- A validated flight record, with the original trimmed strings for the
two timestamps and the parsed price, exactly the dict built by the
source. -/
structure Flight where
  flight_id : String
  origin : String
  destination : String
  departure_datetime : String
  arrival_datetime : String
  price : PyFloat
deriving DecidableEq, Repr

/-- The `issues` list accumulated by `validate_and_build_flight` over the
six fields, in source order: flight id, origin, destination, departure
datetime, arrival datetime, the cross-field order check, price. -/
def allIssues (fid org dst dep_str arr_str price_str : String) : List String :=
  flightIdIssues fid
    ++ check_airport org "origin"
    ++ check_airport dst "destination"
    ++ (parse_datetime dep_str "departure").2
    ++ (parse_datetime arr_str "arrival").2
    ++ orderIssues (parse_datetime dep_str "departure").1 (parse_datetime arr_str "arrival").1
    ++ (priceCheck price_str).2

/-- Body of `validate_and_build_flight` after a successful 6-way split:
if any issue accumulated, return the joined diagnostic, else build the
flight dict.  (When `issues` is empty the price parse necessarily
succeeded, so the `getD` default is never used.) -/
def buildFlight (line : String) (lineno : Nat)
    (fid org dst dep_str arr_str price_str : String) : Option Flight × Option String :=
  let issues := allIssues fid org dst dep_str arr_str price_str
  if issues.isEmpty then
    (some ⟨fid, org, dst, dep_str, arr_str, (priceCheck price_str).1.getD (.finite ⟨0, 0⟩)⟩,
      none)
  else
    (none, some (lineMsg lineno line (joinIssues issues)))

/-- Function `validate_and_build_flight` of the source: split on commas and trim;
with exactly 6 fields run all validators, otherwise fail with the single
missing-required-fields diagnostic. -/
def validate_and_build_flight (line : String) (lineno : Nat) : Option Flight × Option String :=
  match splitFields line with
  | [fid, org, dst, dep_str, arr_str, price_str] =>
    buildFlight line lineno fid org dst dep_str arr_str price_str
  | _ => (none, some (lineMsg lineno line "missing required fields"))

/-! ## Ingestion pass -/

/-- The canonical header text recognised (case-insensitively) on line 1. -/
def headerText : String :=
  "flight_id,origin,destination,departure_datetime,arrival_datetime,price"

/-- What one source line contributes to the ingestion pass. -/
inductive LineOutcome where
  | skip : LineOutcome
  | diag : String → LineOutcome
  | keep : Flight → LineOutcome
deriving DecidableEq, Repr

/-- The per-line body of the loop in `parse_csv_file`: blank lines are
skipped, a line-1 header is skipped, comment lines become diagnostics,
and every other line goes through the record validator (with Python's
truthiness tests on the returned pair). -/
def process_line (lineno : Nat) (line : String) : LineOutcome :=
  let stripped := String.mk (pyStrip line.data)
  if stripped.data.isEmpty then .skip
  else if lineno = 1 ∧ leadsWith headerText.data (pyLower stripped).data = true then .skip
  else if leadsWith ['#'] stripped.data then
    .diag (lineMsg lineno stripped "comment line, ignored for data parsing")
  else
    match validate_and_build_flight line lineno with
    | (fl, some e) =>
      if e ≠ "" then .diag e
      else match fl with
        | some f => .keep f
        | none => .skip
    | (some f, none) => .keep f
    | (none, none) => .skip

/-- The loop of `parse_csv_file`, with 1-based line numbers threaded
through; accepted flights and diagnostics are appended in encounter
order. -/
def parse_lines : Nat → List String → List Flight × List String
  | _, [] => ([], [])
  | n, l :: ls =>
    let rest := parse_lines (n + 1) ls
    match process_line n l with
    | .skip => rest
    | .diag s => (rest.1, s :: rest.2)
    | .keep f => (f :: rest.1, rest.2)

/-- Function `parse_csv_file` of the source, over the file's lines (trailing
newlines already removed, as by the source's `rstrip("\n")`). -/
def parse_csv_file (lines : List String) : List Flight × List String :=
  parse_lines 1 lines

/-! ## Query matcher -/

/-- A query object: each recognised key is optional, unrecognised keys
are never consulted by the matcher and so are not represented. -/
structure Query where
  flight_id : Option String
  origin : Option String
  destination : Option String
  departure_datetime : Option String
  arrival_datetime : Option String
  price : Option PyFloat
deriving DecidableEq, Repr

/-- The `ValueError` text raised by `strptime` on unparseable data. -/
def pyStrptimeErr (s : String) : String :=
  "time data " ++ s ++ " does not match format " ++ DATE_FORMAT

/-- Lines 220-225 of the source: parse an optional query datetime bound
before the scan; an unparseable value raises. -/
def parseQueryDT : Option String → Except String (Option PyDateTime)
  | none => .ok none
  | some s =>
    match strptimeDT s with
    | none => .error (pyStrptimeErr s)
    | some d => .ok (some d)

/-- The three equality filters of `filter_flights` (the loop over
`("flight_id", "origin", "destination")`). -/
def eqFilterOk (q : Query) (f : Flight) : Bool :=
  (match q.flight_id with | none => true | some v => f.flight_id == v)
    && (match q.origin with | none => true | some v => f.origin == v)
    && (match q.destination with | none => true | some v => f.destination == v)

/-- Price clause of the `filter_flights` loop body: the source's
`continue` fires when `flight price > query price`, so the flight is
kept iff that comparison is false (which also keeps a `nan` price,
since every comparison with `nan` is false). -/
def flightPassesPrice (q : Query) (f : Flight) : Except String Bool :=
  match q.price with
  | some p => .ok (!(f.price.gtB p))
  | none => .ok true

/-- Arrival clause of the `filter_flights` loop body: re-parse the
flight's arrival string (raising on failure) and keep unless it exceeds
the bound, then fall through to the price clause. -/
def flightPassesArr (q : Query) (arr : Option PyDateTime) (f : Flight) : Except String Bool :=
  match arr with
  | some a =>
    match strptimeDT f.arrival_datetime with
    | none => .error (pyStrptimeErr f.arrival_datetime)
    | some fa =>
      if a.rank < fa.rank then .ok false
      else flightPassesPrice q f
  | none => flightPassesPrice q f

/-- The whole `filter_flights` loop body for one flight, with the
source's order of checks and `continue`/raise points: equality filters,
then the departure lower bound, then the arrival upper bound, then the
price bound. -/
def flightPasses (q : Query) (dep arr : Option PyDateTime) (f : Flight) : Except String Bool :=
  if ¬ (eqFilterOk q f = true) then .ok false
  else
    match dep with
    | some d =>
      match strptimeDT f.departure_datetime with
      | none => .error (pyStrptimeErr f.departure_datetime)
      | some fd =>
        if fd.rank < d.rank then .ok false
        else flightPassesArr q arr f
    | none => flightPassesArr q arr f

/-- The scan of `filter_flights`: append each flight that passes, stop
with the exception if one is raised. -/
def filterGo (q : Query) (dep arr : Option PyDateTime) : List Flight → Except String (List Flight)
  | [] => .ok []
  | f :: fs =>
    match flightPasses q dep arr f with
    | .error e => .error e
    | .ok false => filterGo q dep arr fs
    | .ok true =>
      match filterGo q dep arr fs with
      | .error e => .error e
      | .ok rest => .ok (f :: rest)

deriving instance DecidableEq for Except

/-- Function `filter_flights` of the source: parse the two optional datetime
bounds up front (raising before any flight is examined), then scan. -/
def filter_flights (flights : List Flight) (query : Query) : Except String (List Flight) :=
  match parseQueryDT query.departure_datetime with
  | .error e => .error e
  | .ok dep =>
    match parseQueryDT query.arrival_datetime with
    | .error e => .error e
    | .ok arr => filterGo query dep arr flights

/-! ## Spec-side query semantics (refinement target for the matcher) -/

/-- Parsed comparison of two timestamp strings: true when both parse and
the first is at or before the second. -/
def dtLeB (s t : String) : Bool :=
  match strptimeDT s, strptimeDT t with
  | some a, some b => decide (a.rank ≤ b.rank)
  | _, _ => false

/-- The query-matching predicate as the specification words it: every
key present must be satisfied (equality for the three string keys, the
departure at least the bound, the arrival at most the bound, the price
at most the bound); absent keys impose no constraint.  "At most the
bound" is Python's `not (price > bound)`, which agrees with `≤` for
every comparable (finite or infinite) price — `PyFloat.finite_not_gt_iff`
below — and keeps the incomparable `nan`, as the source does. -/
def matchesQuery (q : Query) (f : Flight) : Bool :=
  (q.flight_id.all fun v => f.flight_id == v)
    && (q.origin.all fun v => f.origin == v)
    && (q.destination.all fun v => f.destination == v)
    && (q.departure_datetime.all fun s => dtLeB s f.departure_datetime)
    && (q.arrival_datetime.all fun s => dtLeB f.arrival_datetime s)
    && (q.price.all fun p => !(f.price.gtB p))

/-- Both timestamp strings of a flight parse (true of every record the
validator constructs). -/
def flightTimesOkB (f : Flight) : Bool :=
  (strptimeDT f.departure_datetime).isSome && (strptimeDT f.arrival_datetime).isSome

/-- An optional timestamp bound, absent or parseable. -/
def optTimeOkB : Option String → Bool
  | none => true
  | some s => (strptimeDT s).isSome

/-- Both optional datetime bounds of a query parse when present. -/
def queryTimesOkB (q : Query) : Bool :=
  optTimeOkB q.departure_datetime && optTimeOkB q.arrival_datetime

/-- All flights of a list have parseable timestamps. -/
def flightsTimesOkB (fl : List Flight) : Bool :=
  fl.all flightTimesOkB

/-- One recognised filter key together with its value, for stating how a
query grows by one filter. -/
inductive QFilter where
  | fid (v : String)
  | org (v : String)
  | dst (v : String)
  | dep (v : String)
  | arr (v : String)
  | price (v : PyFloat)
deriving DecidableEq, Repr

/-- The query with one more filter key set. -/
def Query.addFilter (q : Query) : QFilter → Query
  | .fid v => ⟨some v, q.origin, q.destination, q.departure_datetime, q.arrival_datetime, q.price⟩
  | .org v => ⟨q.flight_id, some v, q.destination, q.departure_datetime, q.arrival_datetime, q.price⟩
  | .dst v => ⟨q.flight_id, q.origin, some v, q.departure_datetime, q.arrival_datetime, q.price⟩
  | .dep v => ⟨q.flight_id, q.origin, q.destination, some v, q.arrival_datetime, q.price⟩
  | .arr v => ⟨q.flight_id, q.origin, q.destination, q.departure_datetime, some v, q.price⟩
  | .price v => ⟨q.flight_id, q.origin, q.destination, q.departure_datetime, q.arrival_datetime, some v⟩

/-- The query does not already carry the key being added. -/
def Query.lacks (q : Query) : QFilter → Prop
  | .fid _ => q.flight_id = none
  | .org _ => q.origin = none
  | .dst _ => q.destination = none
  | .dep _ => q.departure_datetime = none
  | .arr _ => q.arrival_datetime = none
  | .price _ => q.price = none

/-- A datetime filter value must parse for the query to run. -/
def QFilter.timeOkB : QFilter → Bool
  | .dep v => (strptimeDT v).isSome
  | .arr v => (strptimeDT v).isSome
  | _ => true

/-- The price field validator passes (appends no issue): the string
parses and the parsed value fails both the negative test and the zero
test.  For a finite value that is exactly strict positivity; the
special values `+inf` and `nan` also pass, because Python's `< 0` and
`== 0` are both false of them. -/
def pricePasses (s : String) : Bool :=
  match pyFloat? s with
  | some p => !p.ltZeroB && !p.eqZeroB
  | none => false

/-- Both timestamps parse and the arrival is strictly after the
departure. -/
def arrAfter (dep arr : String) : Bool :=
  match strptimeDT dep, strptimeDT arr with
  | some d, some a => decide (d.rank < a.rank)
  | _, _ => false

/-- Enumerate lines with 1-based numbers starting at `n`. -/
def enumFrom : Nat → List String → List (Nat × String)
  | _, [] => []
  | n, l :: ls => (n, l) :: enumFrom (n + 1) ls

/-- The record an outcome contributes, if any. -/
def keepOf : LineOutcome → Option Flight
  | .keep f => some f
  | _ => none

/-- The diagnostic an outcome contributes, if any. -/
def diagOf : LineOutcome → Option String
  | .diag s => some s
  | _ => none

/-! ## Supporting lemmas -/

theorem pow10n_pos (n : Nat) : 0 < pow10n n := by
  induction n with
  | zero => simp [pow10n]
  | succ k ih => simp [pow10n]; omega

theorem Dec.toRat_pos_iff (d : Dec) : 0 < d.toRat ↔ 0 < d.num := by
  have hp : (0 : Rat) < ((pow10n d.exp : Nat) : Rat) := by
    exact_mod_cast pow10n_pos d.exp
  unfold Dec.toRat
  rw [lt_div_iff₀ hp]
  simp

theorem PyFloat.finite_not_gt_iff (a b : Dec) :
    ((PyFloat.finite a).gtB (PyFloat.finite b) = false) ↔ a.toRat ≤ b.toRat := by
  have hpa : (0 : Rat) < ((pow10n a.exp : Nat) : Rat) := by
    exact_mod_cast pow10n_pos a.exp
  have hpb : (0 : Rat) < ((pow10n b.exp : Nat) : Rat) := by
    exact_mod_cast pow10n_pos b.exp
  unfold PyFloat.gtB Dec.toRat
  rw [div_le_div_iff₀ hpa hpb]
  rw [decide_eq_false_iff_not, Int.not_lt]
  constructor
  · intro h
    exact_mod_cast h
  · intro h
    exact_mod_cast h

theorem PyFloat.pos_or_nan_of_checks (p : PyFloat)
    (h1 : p.ltZeroB = false) (h2 : p.eqZeroB = false) :
    p.posB = true ∨ p = PyFloat.nan := by
  cases p with
  | finite d =>
    left
    simp [PyFloat.ltZeroB, PyFloat.eqZeroB] at h1 h2
    simp [PyFloat.posB]
    omega
  | inf neg =>
    left
    simp [PyFloat.ltZeroB] at h1
    simp [PyFloat.posB, h1]
  | nan => right; rfl

theorem PyFloat.ltZero_false_of_eqZero (p : PyFloat) (h : p.eqZeroB = true) :
    p.ltZeroB = false := by
  cases p with
  | finite d =>
    simp [PyFloat.eqZeroB] at h
    simp [PyFloat.ltZeroB, h]
  | inf neg => simp [PyFloat.eqZeroB] at h
  | nan => simp [PyFloat.eqZeroB] at h

theorem parse_datetime_fst (v k : String) : (parse_datetime v k).1 = strptimeDT v := by
  unfold parse_datetime
  cases strptimeDT v <;> simp

theorem parse_datetime_snd_nil_iff (v k : String) :
    (parse_datetime v k).2 = [] ↔ (strptimeDT v).isSome = true := by
  unfold parse_datetime
  cases strptimeDT v <;> simp

theorem priceCheck_snd_nil_iff (s : String) :
    (priceCheck s).2 = [] ↔ pricePasses s = true := by
  unfold priceCheck pricePasses
  cases pyFloat? s with
  | none => simp
  | some p =>
    cases h1 : p.ltZeroB with
    | true => simp [h1]
    | false =>
      cases h2 : p.eqZeroB with
      | true => simp [h1, h2]
      | false => simp [h1, h2]

theorem priceCheck_pass (s : String) (h : (priceCheck s).2 = []) :
    ∃ p, (priceCheck s).1 = some p ∧ p.ltZeroB = false ∧ p.eqZeroB = false := by
  revert h
  unfold priceCheck
  cases pyFloat? s with
  | none => simp
  | some p =>
    cases h1 : p.ltZeroB with
    | true => simp [h1]
    | false =>
      cases h2 : p.eqZeroB with
      | true => simp [h1, h2]
      | false => simp [h1, h2]

theorem allIssues_nil_iff (fid org dst dep arr pr : String) :
    allIssues fid org dst dep arr pr = [] ↔
      (flightIdIssues fid = [] ∧ check_airport org "origin" = [] ∧
        check_airport dst "destination" = [] ∧
        (parse_datetime dep "departure").2 = [] ∧ (parse_datetime arr "arrival").2 = [] ∧
        pricePasses pr = true ∧ arrAfter dep arr = true) := by
  simp only [allIssues, List.append_eq_nil, priceCheck_snd_nil_iff]
  rcases hd : strptimeDT dep with _ | d <;> rcases ha : strptimeDT arr with _ | a <;>
    simp [parse_datetime, hd, ha, orderIssues, arrAfter] <;>
    constructor <;> intro h <;> tauto

theorem buildFlight_fst_isSome_iff (line : String) (n : Nat) (fid org dst dep arr pr : String) :
    ((buildFlight line n fid org dst dep arr pr).1.isSome = true) ↔
      allIssues fid org dst dep arr pr = [] := by
  unfold buildFlight
  by_cases hh : allIssues fid org dst dep arr pr = [] <;>
    simp [hh, List.isEmpty_iff]

theorem buildFlight_none_iff (line : String) (n : Nat) (fid org dst dep arr pr : String) :
    ((buildFlight line n fid org dst dep arr pr).1 = none ↔
      ∃ s, (buildFlight line n fid org dst dep arr pr).2 = some s) := by
  unfold buildFlight
  by_cases hh : allIssues fid org dst dep arr pr = [] <;>
    simp [hh, List.isEmpty_iff]

theorem buildFlight_some (line : String) (n : Nat) (fid org dst dep arr pr : String)
    (f : Flight) (e : Option String)
    (h : buildFlight line n fid org dst dep arr pr = (some f, e)) :
    allIssues fid org dst dep arr pr = [] ∧
      f = ⟨fid, org, dst, dep, arr, (priceCheck pr).1.getD (.finite ⟨0, 0⟩)⟩ := by
  revert h
  unfold buildFlight
  by_cases hh : allIssues fid org dst dep arr pr = [] <;>
    simp [hh, List.isEmpty_iff]
  intro h1 _
  exact h1.symm

theorem buildFlight_err (line : String) (n : Nat) (fid org dst dep arr pr : String)
    (h : allIssues fid org dst dep arr pr ≠ []) :
    buildFlight line n fid org dst dep arr pr =
      (none, some (lineMsg n line (joinIssues (allIssues fid org dst dep arr pr)))) := by
  unfold buildFlight
  simp [List.isEmpty_iff, h]

theorem validate_of_six (line : String) (n : Nat) (fid org dst dep arr pr : String)
    (h : splitFields line = [fid, org, dst, dep, arr, pr]) :
    validate_and_build_flight line n = buildFlight line n fid org dst dep arr pr := by
  unfold validate_and_build_flight
  rw [h]

theorem validate_not_six (line : String) (n : Nat) (h : (splitFields line).length ≠ 6) :
    validate_and_build_flight line n =
      (none, some (lineMsg n line "missing required fields")) := by
  unfold validate_and_build_flight
  rcases hs : splitFields line with _ | ⟨a, _ | ⟨b, _ | ⟨c, _ | ⟨d, _ | ⟨e, _ | ⟨f, _ | ⟨g, rest⟩⟩⟩⟩⟩⟩⟩ <;>
    rw [hs] at h <;> first | rfl | (exfalso; exact h (by simp))

theorem validate_some (line : String) (n : Nat) (f : Flight) (e : Option String)
    (h : validate_and_build_flight line n = (some f, e)) :
    ∃ fid org dst dep arr pr, splitFields line = [fid, org, dst, dep, arr, pr] ∧
      buildFlight line n fid org dst dep arr pr = (some f, e) := by
  revert h
  unfold validate_and_build_flight
  rcases hs : splitFields line with _ | ⟨a, _ | ⟨b, _ | ⟨c, _ | ⟨d, _ | ⟨e', _ | ⟨f', _ | ⟨g, rest⟩⟩⟩⟩⟩⟩⟩ <;>
    intro h <;> first
      | exact ⟨a, b, c, d, e', f', rfl, h⟩
      | (exfalso; exact Option.noConfusion (congrArg Prod.fst h))

theorem priceIssue_unparseable (pr : String) (h : pyFloat? pr = none) :
    (priceCheck pr).2 = ["invalid price value"] := by
  unfold priceCheck
  rw [h]

theorem priceIssue_neg (pr : String) (p : PyFloat) (h : pyFloat? pr = some p)
    (hn : p.ltZeroB = true) :
    (priceCheck pr).2 = ["negative price value"] := by
  unfold priceCheck
  rw [h]
  simp [hn]

theorem priceIssue_zero (pr : String) (p : PyFloat) (h : pyFloat? pr = some p)
    (hn : p.eqZeroB = true) :
    (priceCheck pr).2 = ["non-positive price value"] := by
  unfold priceCheck
  rw [h]
  simp [PyFloat.ltZero_false_of_eqZero p hn, hn]

theorem mem_allIssues_price (fid org dst dep arr pr : String) (m : String)
    (hm : m ∈ (priceCheck pr).2) : m ∈ allIssues fid org dst dep arr pr := by
  simp only [allIssues, List.mem_append]
  tauto

theorem validate_fst_none_of_mem (line : String) (n : Nat) (fid org dst dep arr pr m : String)
    (h : splitFields line = [fid, org, dst, dep, arr, pr])
    (hm : m ∈ allIssues fid org dst dep arr pr) :
    (validate_and_build_flight line n).1 = none := by
  rw [validate_of_six line n fid org dst dep arr pr h,
    buildFlight_err line n fid org dst dep arr pr (List.ne_nil_of_mem hm)]

theorem check_airport_eq (code kind : String) :
    check_airport code kind =
      (if code.length = 3 ∧ code.data.all Char.isAlpha = true ∧ pyIsUpper code = true ∧
          code ∈ VALID_AIRPORTS
        then [] else ["invalid " ++ kind ++ " code"]) := by
  unfold check_airport
  by_cases h1 : (code.length = 3 ∧ code.data.all Char.isAlpha = true ∧ pyIsUpper code = true)
  · by_cases h2 : code ∈ VALID_AIRPORTS
    · rw [if_neg (not_not_intro h1), if_neg (not_not_intro h2),
        if_pos ⟨h1.1, h1.2.1, h1.2.2, h2⟩]
    · rw [if_neg (not_not_intro h1), if_pos h2, if_neg (fun hc => h2 hc.2.2.2)]
  · rw [if_pos h1, if_neg (fun hc => h1 ⟨hc.1, hc.2.1, hc.2.2.1⟩)]

/-! ## The claims -/

/-- C1: for every input line splitting into exactly 6 comma-separated
fields, a record is produced iff every field validator passes (flight id,
origin, destination, the two timestamps, the price) and the parsed
arrival is strictly after the parsed departure; otherwise no record is
created and the line yields a diagnostic string. -/
theorem record_iff_all_validators_pass (line : String) (n : Nat)
    (fid org dst dep arr pr : String)
    (h : splitFields line = [fid, org, dst, dep, arr, pr]) :
    (((validate_and_build_flight line n).1.isSome = true) ↔
      (flightIdIssues fid = [] ∧ check_airport org "origin" = [] ∧
        check_airport dst "destination" = [] ∧
        (parse_datetime dep "departure").2 = [] ∧ (parse_datetime arr "arrival").2 = [] ∧
        pricePasses pr = true ∧ arrAfter dep arr = true)) ∧
    ((validate_and_build_flight line n).1 = none ↔
      ∃ s, (validate_and_build_flight line n).2 = some s) := by
  rw [validate_of_six line n fid org dst dep arr pr h]
  exact ⟨(buildFlight_fst_isSome_iff line n fid org dst dep arr pr).trans
      (allIssues_nil_iff fid org dst dep arr pr),
    buildFlight_none_iff line n fid org dst dep arr pr⟩

theorem record_iff_all_validators_pass_witness :
    (validate_and_build_flight
        "BT101,RIX,LHR,2024-03-10 08:00,2024-03-10 10:00,99.5" 2).1.isSome = true :=
  (record_iff_all_validators_pass
      "BT101,RIX,LHR,2024-03-10 08:00,2024-03-10 10:00,99.5" 2
      "BT101" "RIX" "LHR" "2024-03-10 08:00" "2024-03-10 10:00" "99.5"
      (by decide)).1.mpr (by decide)

/-- C3, counterexample: the claim says every Record has a strictly
positive price, yet Python `float("nan")` succeeds and `nan` fails both
the `< 0` and the `== 0` test, so a fully valid line with price `nan`
builds a Record whose price is `nan` — which is not strictly positive
(`0 < nan` is false in Python). -/
theorem nan_price_record_counterexample :
    validate_and_build_flight "AB,RIX,LHR,2024-03-10 08:00,2024-03-10 10:00,nan" 1 =
      (some ⟨"AB", "RIX", "LHR", "2024-03-10 08:00", "2024-03-10 10:00", PyFloat.nan⟩,
        none) ∧
    PyFloat.nan.posB = false := by
  decide

/-- C3, amended: every record's price passes both of Python's sign
checks — it is never negative (not even negative infinity) and never
zero — hence it is strictly positive in Python's ordering unless it is
`nan` (a finite record price is a positive rational); on a 6-field line
an unparseable price, a value with `< 0` true, and a value with `== 0`
true each block record creation, the negative and the zero case with
their own distinct message texts. -/
theorem record_price_positive_unless_nan (line : String) (n : Nat) :
    (∀ f e, validate_and_build_flight line n = (some f, e) →
      (f.price.posB = true ∨ f.price = PyFloat.nan) ∧
      (∀ q, f.price = PyFloat.finite q → 0 < q.toRat) ∧
      f.price.ltZeroB = false ∧ f.price.eqZeroB = false) ∧
    (∀ fid org dst dep arr pr, splitFields line = [fid, org, dst, dep, arr, pr] →
      ((pyFloat? pr = none →
          (validate_and_build_flight line n).1 = none ∧
            "invalid price value" ∈ allIssues fid org dst dep arr pr) ∧
        (∀ p, pyFloat? pr = some p → p.ltZeroB = true →
          (validate_and_build_flight line n).1 = none ∧
            "negative price value" ∈ allIssues fid org dst dep arr pr) ∧
        (∀ p, pyFloat? pr = some p → p.eqZeroB = true →
          (validate_and_build_flight line n).1 = none ∧
            "non-positive price value" ∈ allIssues fid org dst dep arr pr))) ∧
    ("negative price value" : String) ≠ "non-positive price value" := by
  refine ⟨?_, ?_, by decide⟩
  · intro f e hv
    obtain ⟨fid, org, dst, dep, arr, pr, hs, hb⟩ := validate_some line n f e hv
    obtain ⟨hnil, hf⟩ := buildFlight_some line n fid org dst dep arr pr f e hb
    simp only [allIssues, List.append_eq_nil] at hnil
    obtain ⟨p, hp1, hlt, heq⟩ := priceCheck_pass pr hnil.2
    rw [hf]
    simp only [hp1, Option.getD_some]
    refine ⟨PyFloat.pos_or_nan_of_checks p hlt heq, ?_, hlt, heq⟩
    intro q hq
    rw [hq] at hlt heq
    simp [PyFloat.ltZeroB] at hlt
    simp [PyFloat.eqZeroB] at heq
    exact (Dec.toRat_pos_iff q).mpr (by omega)
  · intro fid org dst dep arr pr hs
    refine ⟨fun hn => ?_, fun p hp hneg => ?_, fun p hp hz => ?_⟩
    · have hm : "invalid price value" ∈ (priceCheck pr).2 := by
        rw [priceIssue_unparseable pr hn]
        exact List.mem_singleton.mpr rfl
      exact ⟨validate_fst_none_of_mem line n fid org dst dep arr pr _ hs
          (mem_allIssues_price fid org dst dep arr pr _ hm),
        mem_allIssues_price fid org dst dep arr pr _ hm⟩
    · have hm : "negative price value" ∈ (priceCheck pr).2 := by
        rw [priceIssue_neg pr p hp hneg]
        exact List.mem_singleton.mpr rfl
      exact ⟨validate_fst_none_of_mem line n fid org dst dep arr pr _ hs
          (mem_allIssues_price fid org dst dep arr pr _ hm),
        mem_allIssues_price fid org dst dep arr pr _ hm⟩
    · have hm : "non-positive price value" ∈ (priceCheck pr).2 := by
        rw [priceIssue_zero pr p hp hz]
        exact List.mem_singleton.mpr rfl
      exact ⟨validate_fst_none_of_mem line n fid org dst dep arr pr _ hs
          (mem_allIssues_price fid org dst dep arr pr _ hm),
        mem_allIssues_price fid org dst dep arr pr _ hm⟩

theorem record_price_positive_unless_nan_witness :
    (validate_and_build_flight "BT101,RIX,LHR,2024-03-10 08:00,2024-03-10 10:00,-5.50" 4).1 = none ∧
      "negative price value" ∈ allIssues "BT101" "RIX" "LHR" "2024-03-10 08:00" "2024-03-10 10:00" "-5.50" :=
  ((record_price_positive_unless_nan
        "BT101,RIX,LHR,2024-03-10 08:00,2024-03-10 10:00,-5.50" 4).2.1
      "BT101" "RIX" "LHR" "2024-03-10 08:00" "2024-03-10 10:00" "-5.50"
      (by decide)).2.1 (PyFloat.finite ⟨-550, 2⟩) (by decide) (by decide)

/-- C4: a line that does not split into exactly 6 comma-separated fields
fails with exactly the single missing-required-fields diagnostic,
whatever else it contains: the validator's output is fully determined and
contains no field-level issue. -/
theorem wrong_field_count_single_issue (line : String) (n : Nat)
    (h : (splitFields line).length ≠ 6) :
    validate_and_build_flight line n =
      (none, some (lineMsg n line "missing required fields")) :=
  validate_not_six line n h

theorem wrong_field_count_single_issue_witness :
    validate_and_build_flight "a,b" 7 =
      (none, some (lineMsg 7 "a,b" "missing required fields")) :=
  wrong_field_count_single_issue "a,b" 7 (by decide)

/-- C7: the airport validator accepts exactly the 3-character, all-alpha,
all-uppercase members of the fixed whitelist, and every rejected string
gets the same "invalid <role> code" message regardless of whether only
the shape or only the membership failed. -/
theorem airport_whitelist_only (code kind : String) :
    (check_airport code kind = [] ↔
      (code.length = 3 ∧ code.data.all Char.isAlpha = true ∧ pyIsUpper code = true ∧
        code ∈ VALID_AIRPORTS)) ∧
    (¬ (code.length = 3 ∧ code.data.all Char.isAlpha = true ∧ pyIsUpper code = true ∧
        code ∈ VALID_AIRPORTS) →
      check_airport code kind = ["invalid " ++ kind ++ " code"]) := by
  rw [check_airport_eq code kind]
  by_cases hc : (code.length = 3 ∧ code.data.all Char.isAlpha = true ∧ pyIsUpper code = true ∧
      code ∈ VALID_AIRPORTS)
  · simp [hc]
  · simp [hc]

theorem airport_whitelist_only_witness :
    check_airport "lhr" "origin" = ["invalid origin code"] ∧
      check_airport "XXX" "origin" = ["invalid origin code"] :=
  ⟨(airport_whitelist_only "lhr" "origin").2 (by decide),
    (airport_whitelist_only "XXX" "origin").2 (by decide)⟩

/-- C8: on a 6-field line the issues of every failing field all appear in
the accumulated issue list (validation does not stop at the first
failure), and the diagnostic for the line is the join of that whole
list. -/
theorem issues_accumulate_per_field (line : String) (n : Nat)
    (fid org dst dep arr pr : String)
    (h : splitFields line = [fid, org, dst, dep, arr, pr]) :
    (∀ m ∈ flightIdIssues fid, m ∈ allIssues fid org dst dep arr pr) ∧
    (∀ m ∈ check_airport org "origin", m ∈ allIssues fid org dst dep arr pr) ∧
    (∀ m ∈ check_airport dst "destination", m ∈ allIssues fid org dst dep arr pr) ∧
    (∀ m ∈ (parse_datetime dep "departure").2, m ∈ allIssues fid org dst dep arr pr) ∧
    (∀ m ∈ (parse_datetime arr "arrival").2, m ∈ allIssues fid org dst dep arr pr) ∧
    (∀ m ∈ (priceCheck pr).2, m ∈ allIssues fid org dst dep arr pr) ∧
    (allIssues fid org dst dep arr pr ≠ [] →
      (validate_and_build_flight line n).2 =
        some (lineMsg n line (joinIssues (allIssues fid org dst dep arr pr)))) := by
  refine ⟨?_, ?_, ?_, ?_, ?_, ?_, fun hne => ?_⟩
  · intro m hm
    simp only [allIssues, List.mem_append]
    tauto
  · intro m hm
    simp only [allIssues, List.mem_append]
    tauto
  · intro m hm
    simp only [allIssues, List.mem_append]
    tauto
  · intro m hm
    simp only [allIssues, List.mem_append]
    tauto
  · intro m hm
    simp only [allIssues, List.mem_append]
    tauto
  · intro m hm
    simp only [allIssues, List.mem_append]
    tauto
  · rw [validate_of_six line n fid org dst dep arr pr h,
      buildFlight_err line n fid org dst dep arr pr hne]

theorem issues_accumulate_per_field_witness :
    "flight_id too short (less than 2 characters)" ∈
        allIssues "X" "lhr" "LHR" "2024-03-10 08:00" "2024-03-10 10:00" "50" ∧
      "invalid origin code" ∈
        allIssues "X" "lhr" "LHR" "2024-03-10 08:00" "2024-03-10 10:00" "50" :=
  ⟨(issues_accumulate_per_field "X,lhr,LHR,2024-03-10 08:00,2024-03-10 10:00,50" 9
        "X" "lhr" "LHR" "2024-03-10 08:00" "2024-03-10 10:00" "50" (by decide)).1
      "flight_id too short (less than 2 characters)" (by decide),
    (issues_accumulate_per_field "X,lhr,LHR,2024-03-10 08:00,2024-03-10 10:00,50" 9
        "X" "lhr" "LHR" "2024-03-10 08:00" "2024-03-10 10:00" "50" (by decide)).2.1
      "invalid origin code" (by decide)⟩

/-- C2, counterexample: the claim says a timestamp without zero-padding
such as "2024-3-10 08:00" is rejected with an invalid-timestamp issue;
in fact `strptime` under `%Y-%m-%d %H:%M` accepts a 1-digit month, so
the field parses cleanly and no issue is produced. -/
theorem padding_not_required_counterexample :
    parse_datetime "2024-3-10 08:00" "departure" = (some ⟨2024, 3, 10, 8, 0⟩, []) := by
  decide

/-- C2, amended: timestamp validation follows `strptime` leniency:
"2024-03-10 08:00" parses, and so do the non-zero-padded
"2024-3-10 08:00" and "2024-03-10 8:00"; wrong separators, out-of-range
components, impossible dates and trailing text are rejected with an
invalid-timestamp issue. -/
theorem timestamp_leniency :
    strptimeDT "2024-03-10 08:00" = some ⟨2024, 3, 10, 8, 0⟩ ∧
    strptimeDT "2024-3-10 08:00" = some ⟨2024, 3, 10, 8, 0⟩ ∧
    strptimeDT "2024-03-10 8:00" = some ⟨2024, 3, 10, 8, 0⟩ ∧
    parse_datetime "2024-03-10" "departure" = (none, ["invalid departure datetime"]) ∧
    strptimeDT "2024/03/10 08:00" = none ∧
    strptimeDT "2024-13-10 08:00" = none ∧
    strptimeDT "2024-02-30 08:00" = none ∧
    strptimeDT "2024-03-10 24:00" = none ∧
    strptimeDT "2024-03-10 08:60" = none ∧
    strptimeDT "2024-03-10 08:00x" = none := by
  decide

theorem data_mk (cs : List Char) : (String.mk cs).data = cs := rfl

theorem header_not_comment (xs : List Char) :
    leadsWith headerText.data ('#' :: xs) = false := by
  have h : headerText.data = 'f' :: headerText.data.tail := rfl
  rw [h]
  simp [leadsWith]

theorem parse_lines_eq (n : Nat) (ls : List String) :
    parse_lines n ls =
      ((enumFrom n ls).filterMap (fun p => keepOf (process_line p.1 p.2)),
        (enumFrom n ls).filterMap (fun p => diagOf (process_line p.1 p.2))) := by
  induction ls generalizing n with
  | nil => rfl
  | cons l ls ih =>
    simp only [parse_lines, enumFrom, List.filterMap_cons, ih n.succ]
    cases process_line n l <;> simp [keepOf, diagOf]

/-- C9: the ingestion pass is exactly the per-line outcomes collected in
order (so each line contributes at most one record and at most one
diagnostic); a blank line contributes neither, a comment line always
contributes a diagnostic (never a record), and a rejected data line
contributes its validator diagnostic. -/
theorem ingestion_line_accounting :
    (∀ lines, parse_csv_file lines =
      ((enumFrom 1 lines).filterMap (fun p => keepOf (process_line p.1 p.2)),
        (enumFrom 1 lines).filterMap (fun p => diagOf (process_line p.1 p.2)))) ∧
    (∀ n line, pyStrip line.data = [] → process_line n line = .skip) ∧
    (∀ n line, leadsWith ['#'] (pyStrip line.data) = true →
      ∃ s, process_line n line = .diag s) ∧
    (∀ n line e, pyStrip line.data ≠ [] →
      ¬ (n = 1 ∧ leadsWith headerText.data (pyLower (String.mk (pyStrip line.data))).data = true) →
      leadsWith ['#'] (pyStrip line.data) = false →
      (validate_and_build_flight line n).2 = some e → e ≠ "" →
      process_line n line = .diag e) := by
  refine ⟨fun lines => parse_lines_eq 1 lines, ?_, ?_, ?_⟩
  · intro n line hb
    unfold process_line
    simp [hb]
  · intro n line hc
    rcases hs : pyStrip line.data with _ | ⟨c, rest⟩
    · rw [hs] at hc
      exact absurd hc (by simp [leadsWith])
    · rw [hs] at hc
      have hc' : c = '#' := by
        simp [leadsWith] at hc
        exact hc.symm
      subst hc'
      refine ⟨lineMsg n (String.mk ('#' :: rest)) "comment line, ignored for data parsing", ?_⟩
      unfold process_line
      rw [hs]
      simp [data_mk, pyLower, header_not_comment, leadsWith]
  · intro n line e hb hh hcf hv he
    rcases hval : validate_and_build_flight line n with ⟨fl, err⟩
    rw [hval] at hv
    simp only at hv
    subst hv
    unfold process_line
    rw [hval]
    simp [data_mk, hb, hh, hcf, he, List.isEmpty_iff]

theorem ingestion_line_accounting_witness :
    ∃ s, process_line 3 "# note" = LineOutcome.diag s :=
  ingestion_line_accounting.2.2.1 3 "# note" (by decide)

/-- C10: a query datetime bound that fails to parse makes
`filter_flights` raise (return an error) rather than produce a match
list, and the error does not depend on the record list: it is raised
before any record is examined. -/
theorem bad_query_datetime_raises (q : Query) (s : String)
    (h : (q.departure_datetime = some s ∨ q.arrival_datetime = some s) ∧ strptimeDT s = none) :
    ∃ e, ∀ flights, filter_flights flights q = Except.error e := by
  obtain ⟨hd | ha, hn⟩ := h
  · refine ⟨pyStrptimeErr s, fun flights => ?_⟩
    unfold filter_flights
    rw [hd]
    simp [parseQueryDT, hn]
  · cases hq : parseQueryDT q.departure_datetime with
    | error e =>
      refine ⟨e, fun flights => ?_⟩
      unfold filter_flights
      rw [hq]
    | ok dep =>
      refine ⟨pyStrptimeErr s, fun flights => ?_⟩
      unfold filter_flights
      rw [hq, ha]
      simp [parseQueryDT, hn]

theorem bad_query_datetime_raises_witness :
    ∃ e, ∀ flights,
      filter_flights flights ⟨none, none, none, some "2024-99-99", none, none⟩ =
        Except.error e :=
  bad_query_datetime_raises ⟨none, none, none, some "2024-99-99", none, none⟩
    "2024-99-99" ⟨Or.inl rfl, by decide⟩

theorem matchesQuery_decomp (q : Query) (f : Flight) :
    matchesQuery q f =
      (eqFilterOk q f
        && (q.departure_datetime.all fun s => dtLeB s f.departure_datetime)
        && (q.arrival_datetime.all fun s => dtLeB f.arrival_datetime s)
        && (q.price.all fun p => !(f.price.gtB p))) := by
  unfold matchesQuery eqFilterOk
  cases q.flight_id <;> cases q.origin <;> cases q.destination <;>
    simp [Option.all_some, Option.all_none, Bool.and_assoc]

theorem flightPassesPrice_eq (q : Query) (f : Flight) :
    flightPassesPrice q f = .ok (q.price.all fun p => !(f.price.gtB p)) := by
  unfold flightPassesPrice
  cases q.price <;> rfl

theorem flightPassesArr_eq (q : Query) (arr : Option PyDateTime) (f : Flight) (fa : PyDateTime)
    (harr : parseQueryDT q.arrival_datetime = .ok arr)
    (hfa' : strptimeDT f.arrival_datetime = some fa) :
    flightPassesArr q arr f =
      .ok ((q.arrival_datetime.all fun s => dtLeB f.arrival_datetime s)
        && (q.price.all fun p => !(f.price.gtB p))) := by
  cases hqa : q.arrival_datetime with
  | none =>
    rw [hqa] at harr
    have harr' : arr = none := by simpa [parseQueryDT] using harr.symm
    subst harr'
    unfold flightPassesArr
    rw [flightPassesPrice_eq]
    simp
  | some s =>
    rw [hqa] at harr
    simp only [parseQueryDT] at harr
    cases hss : strptimeDT s with
    | none =>
      rw [hss] at harr
      exact absurd harr (by simp)
    | some a =>
      rw [hss] at harr
      have harr' : arr = some a := by simpa using harr.symm
      subst harr'
      unfold flightPassesArr
      rw [hfa']
      simp only [Option.all_some]
      by_cases hr : a.rank < fa.rank
      · rw [if_pos hr]
        have hle : dtLeB f.arrival_datetime s = false := by
          unfold dtLeB
          rw [hfa', hss]
          simp
          omega
        rw [hle]
        simp
      · rw [if_neg hr, flightPassesPrice_eq]
        have hle : dtLeB f.arrival_datetime s = true := by
          unfold dtLeB
          rw [hfa', hss]
          simp
          omega
        rw [hle]
        simp

theorem flightPasses_eq (q : Query) (dep arr : Option PyDateTime) (f : Flight)
    (fd fa : PyDateTime)
    (hdep : parseQueryDT q.departure_datetime = .ok dep)
    (harr : parseQueryDT q.arrival_datetime = .ok arr)
    (hfd' : strptimeDT f.departure_datetime = some fd)
    (hfa' : strptimeDT f.arrival_datetime = some fa) :
    flightPasses q dep arr f = .ok (matchesQuery q f) := by
  rw [matchesQuery_decomp]
  unfold flightPasses
  cases heq : eqFilterOk q f with
  | false =>
    rw [if_pos (by simp [heq])]
    simp
  | true =>
    rw [if_neg (by simp [heq])]
    cases hqd : q.departure_datetime with
    | none =>
      rw [hqd] at hdep
      have hdep' : dep = none := by simpa [parseQueryDT] using hdep.symm
      subst hdep'
      rw [flightPassesArr_eq q arr f fa harr hfa']
      simp [Bool.and_assoc]
    | some s =>
      rw [hqd] at hdep
      simp only [parseQueryDT] at hdep
      cases hss : strptimeDT s with
      | none =>
        rw [hss] at hdep
        exact absurd hdep (by simp)
      | some d =>
        rw [hss] at hdep
        have hdep' : dep = some d := by simpa using hdep.symm
        subst hdep'
        rw [hfd']
        simp only [Option.all_some]
        by_cases hr : fd.rank < d.rank
        · rw [if_pos hr]
          have hle : dtLeB s f.departure_datetime = false := by
            unfold dtLeB
            rw [hss, hfd']
            simp
            omega
          rw [hle]
          simp
        · rw [if_neg hr, flightPassesArr_eq q arr f fa harr hfa']
          have hle : dtLeB s f.departure_datetime = true := by
            unfold dtLeB
            rw [hss, hfd']
            simp
            omega
          rw [hle]
          simp [Bool.and_assoc]

theorem flightTimesOkB_elim (f : Flight) (h : flightTimesOkB f = true) :
    ∃ fd fa, strptimeDT f.departure_datetime = some fd ∧
      strptimeDT f.arrival_datetime = some fa := by
  unfold flightTimesOkB at h
  rw [Bool.and_eq_true] at h
  obtain ⟨fd, hfd⟩ := Option.isSome_iff_exists.mp h.1
  obtain ⟨fa, hfa⟩ := Option.isSome_iff_exists.mp h.2
  exact ⟨fd, fa, hfd, hfa⟩

theorem filterGo_eq_filter (q : Query) (dep arr : Option PyDateTime) (flights : List Flight)
    (hdep : parseQueryDT q.departure_datetime = .ok dep)
    (harr : parseQueryDT q.arrival_datetime = .ok arr)
    (hf : ∀ f ∈ flights, flightTimesOkB f = true) :
    filterGo q dep arr flights = .ok (flights.filter (fun f => matchesQuery q f)) := by
  induction flights with
  | nil => rfl
  | cons f fs ih =>
    obtain ⟨fd, fa, hfd', hfa'⟩ := flightTimesOkB_elim f (hf f (List.mem_cons_self f fs))
    have ih' := ih (fun g hg => hf g (List.mem_cons_of_mem f hg))
    rw [List.filter_cons]
    simp only [filterGo]
    rw [flightPasses_eq q dep arr f fd fa hdep harr hfd' hfa']
    cases hm : matchesQuery q f with
    | false => simp [hm, ih']
    | true =>
      rw [ih']
      simp [hm]

theorem optTimeOk_parse (o : Option String) (h : optTimeOkB o = true) :
    ∃ x, parseQueryDT o = .ok x := by
  cases o with
  | none => exact ⟨none, rfl⟩
  | some s =>
    unfold optTimeOkB at h
    obtain ⟨d, hd⟩ := Option.isSome_iff_exists.mp h
    refine ⟨some d, ?_⟩
    simp only [parseQueryDT]
    rw [hd]

theorem filter_flights_ok (flights : List Flight) (q : Query)
    (hq : queryTimesOkB q = true) (hf : flightsTimesOkB flights = true) :
    filter_flights flights q = .ok (flights.filter (fun f => matchesQuery q f)) := by
  unfold queryTimesOkB at hq
  rw [Bool.and_eq_true] at hq
  obtain ⟨dep, hdep⟩ := optTimeOk_parse _ hq.1
  obtain ⟨arr, harr⟩ := optTimeOk_parse _ hq.2
  unfold filter_flights
  rw [hdep, harr]
  refine filterGo_eq_filter q dep arr flights hdep harr ?_
  intro f hfm
  unfold flightsTimesOkB at hf
  rw [List.all_eq_true] at hf
  exact hf f hfm

/-- C5: on records whose timestamps parse (true of all validator output)
and a query whose bounds parse, the matcher returns exactly the ordered
subsequence of records satisfying every present filter key (equality on
flight id / origin / destination, departure at least the bound, arrival
at most the bound, price at most the bound); absent keys impose no
constraint, so the all-absent query returns every record. -/
theorem filter_returns_matching_subsequence (flights : List Flight) (q : Query)
    (hq : queryTimesOkB q = true) (hf : flightsTimesOkB flights = true) :
    filter_flights flights q = .ok (flights.filter (fun f => matchesQuery q f)) ∧
    (flights.filter (fun f => matchesQuery q f)).Sublist flights ∧
    (q = ⟨none, none, none, none, none, none⟩ → filter_flights flights q = .ok flights) := by
  refine ⟨filter_flights_ok flights q hq hf, List.filter_sublist flights, fun hq0 => ?_⟩
  subst hq0
  rw [filter_flights_ok flights ⟨none, none, none, none, none, none⟩ rfl hf]
  have hall : (fun f => matchesQuery ⟨none, none, none, none, none, none⟩ f) =
      fun _ : Flight => true := rfl
  rw [hall, List.filter_true]

theorem filter_returns_matching_subsequence_witness :
    filter_flights [⟨"BT101", "RIX", "LHR", "2024-03-10 08:00", "2024-03-10 10:00", PyFloat.finite ⟨995, 1⟩⟩]
        ⟨some "BT101", none, none, some "2024-03-10 07:00", some "2024-03-11 00:00", some (PyFloat.finite ⟨100, 0⟩)⟩ =
      .ok ([⟨"BT101", "RIX", "LHR", "2024-03-10 08:00", "2024-03-10 10:00", PyFloat.finite ⟨995, 1⟩⟩].filter
        (fun f => matchesQuery
          ⟨some "BT101", none, none, some "2024-03-10 07:00", some "2024-03-11 00:00", some (PyFloat.finite ⟨100, 0⟩)⟩ f)) :=
  (filter_returns_matching_subsequence
      [⟨"BT101", "RIX", "LHR", "2024-03-10 08:00", "2024-03-10 10:00", PyFloat.finite ⟨995, 1⟩⟩]
      ⟨some "BT101", none, none, some "2024-03-10 07:00", some "2024-03-11 00:00", some (PyFloat.finite ⟨100, 0⟩)⟩
      (by decide) (by decide)).1

theorem addFilter_timesOk (q : Query) (fl : QFilter)
    (hq : queryTimesOkB q = true) (hv : QFilter.timeOkB fl = true) :
    queryTimesOkB (q.addFilter fl) = true := by
  cases fl <;> simp_all [queryTimesOkB, Query.addFilter, QFilter.timeOkB, optTimeOkB]

theorem matchesQuery_addFilter_imp (q : Query) (fl : QFilter) (f : Flight)
    (hl : q.lacks fl) (h : matchesQuery (q.addFilter fl) f = true) :
    matchesQuery q f = true := by
  cases fl with
  | fid v =>
    simp only [Query.lacks] at hl
    simp only [matchesQuery, Query.addFilter] at h ⊢
    rw [hl]
    simp only [Option.all_none, Bool.and_eq_true] at h ⊢
    tauto
  | org v =>
    simp only [Query.lacks] at hl
    simp only [matchesQuery, Query.addFilter] at h ⊢
    rw [hl]
    simp only [Option.all_none, Bool.and_eq_true] at h ⊢
    tauto
  | dst v =>
    simp only [Query.lacks] at hl
    simp only [matchesQuery, Query.addFilter] at h ⊢
    rw [hl]
    simp only [Option.all_none, Bool.and_eq_true] at h ⊢
    tauto
  | dep v =>
    simp only [Query.lacks] at hl
    simp only [matchesQuery, Query.addFilter] at h ⊢
    rw [hl]
    simp only [Option.all_none, Bool.and_eq_true] at h ⊢
    tauto
  | arr v =>
    simp only [Query.lacks] at hl
    simp only [matchesQuery, Query.addFilter] at h ⊢
    rw [hl]
    simp only [Option.all_none, Bool.and_eq_true] at h ⊢
    tauto
  | price v =>
    simp only [Query.lacks] at hl
    simp only [matchesQuery, Query.addFilter] at h ⊢
    rw [hl]
    simp only [Option.all_none, Bool.and_eq_true] at h ⊢
    tauto

/-- C6: adding one recognised filter key to a query that lacks it never
increases the number of matching records: both runs succeed and the
narrowed match list is no longer than the original. -/
theorem adding_filter_monotone (flights : List Flight) (q : Query) (fl : QFilter)
    (hq : queryTimesOkB q = true) (hf : flightsTimesOkB flights = true)
    (hv : QFilter.timeOkB fl = true) (hl : q.lacks fl) :
    ∃ l l', filter_flights flights q = .ok l ∧
      filter_flights flights (q.addFilter fl) = .ok l' ∧ l'.length ≤ l.length := by
  refine ⟨_, _, filter_flights_ok flights q hq hf,
    filter_flights_ok flights (q.addFilter fl) (addFilter_timesOk q fl hq hv) hf, ?_⟩
  exact (List.monotone_filter_right flights
    (fun f h => matchesQuery_addFilter_imp q fl f hl h)).length_le

theorem adding_filter_monotone_witness :
    ∃ l l',
      filter_flights
          [⟨"BT101", "RIX", "LHR", "2024-03-10 08:00", "2024-03-10 10:00", PyFloat.finite ⟨995, 1⟩⟩]
          ⟨some "BT101", none, none, none, none, none⟩ = .ok l ∧
        filter_flights
          [⟨"BT101", "RIX", "LHR", "2024-03-10 08:00", "2024-03-10 10:00", PyFloat.finite ⟨995, 1⟩⟩]
          (Query.addFilter ⟨some "BT101", none, none, none, none, none⟩ (QFilter.price (PyFloat.finite ⟨50, 0⟩))) =
          .ok l' ∧ l'.length ≤ l.length :=
  adding_filter_monotone
    [⟨"BT101", "RIX", "LHR", "2024-03-10 08:00", "2024-03-10 10:00", PyFloat.finite ⟨995, 1⟩⟩]
    ⟨some "BT101", none, none, none, none, none⟩ (QFilter.price (PyFloat.finite ⟨50, 0⟩))
    (by decide) (by decide) (by decide) rfl
